import Mathlib

/-
Verification of the portfolio interaction layer (src/main.js).

The script is a flat list of independent DOM behaviors.  Each behavior is
embedded below as a pure Lean function over an explicit model of the DOM
state it touches:

* numbers that JS handles as floats are modelled as rationals (all the
  constants involved — 300, 50, 0.03, 0.018, 42, 600, 2200, … — are exactly
  representable, and the claims are about exact values and comparisons);
* DOM elements are identified by natural numbers;
* `getAttribute` results (String or null) are `Option String`;
* IntersectionObserver-driven behaviors are modelled as a step function over
  an explicit state (the set of currently observed targets plus the per-target
  DOM state), folded over a trace of delivered entries `(target, isIntersecting)`.
  The browser delivers entries only for targets the observer is currently
  observing; this environment guarantee is modelled by the membership guard
  `entry.1 ∈ s.observed` in the step functions — the callback bodies in the
  source act unconditionally on every intersecting entry they receive.
-/

/-! ## Helpers (main.js lines 13-29) -/

/-- `clamp` (main.js line 27): `Math.max(min, Math.min(max, val))`. -/
def clamp (val lo hi : ℚ) : ℚ := max lo (min hi val)

/-! ## 1. Mobile menu toggle (main.js lines 34-54) -/

/-- The DOM state the mobile-menu behavior touches: the toggle's
`aria-expanded` attribute (`getAttribute` yields null when the attribute is
absent, modelled by `none`), the menu's `hidden` property, and whether the
toggle currently carries the `is-active` class. -/
structure MenuState where
  ariaExpanded : Option String
  hidden : Bool
  isActive : Bool
deriving Repr, DecidableEq

/-- The toggle-control click handler (main.js lines 39-44):
`isOpen = toggle.getAttribute("aria-expanded") === "true"`, then
`setAttribute("aria-expanded", String(!isOpen))`, `menu.hidden = isOpen`,
`toggle.classList.toggle("is-active")`. -/
def toggleClick (s : MenuState) : MenuState :=
  let isOpen : Bool := s.ariaExpanded == some "true"
  { ariaExpanded := some (if isOpen then "false" else "true")
    hidden := isOpen
    isActive := !s.isActive }

/-- The mobile-link click handler (main.js lines 48-52): forces
`aria-expanded = "false"`, `menu.hidden = true`, removes `is-active`. -/
def mobileLinkClick (_s : MenuState) : MenuState :=
  { ariaExpanded := some "false", hidden := true, isActive := false }

/-! ## 2. Smooth scrolling for anchor links (main.js lines 59-68) -/

/-- `scrollIntoView` behavior option: `motionOK ? "smooth" : "auto"`
(main.js line 66).  `auto` is the instant, non-animated mode (it follows the
page's computed `scroll-behavior`, which this script never sets). -/
inductive ScrollBehavior
  | smooth
  | auto
deriving Repr, DecidableEq

/-- One `scrollIntoView` request issued by the click handler. -/
structure ScrollRequest where
  target : Nat
  behavior : ScrollBehavior
  block : String
deriving Repr, DecidableEq

/-- Observable outcome of one click on an in-page anchor: whether
`preventDefault` was called, and the scroll requests issued. -/
structure ClickOutcome where
  preventedDefault : Bool
  requests : List ScrollRequest
deriving Repr, DecidableEq

/-- The anchor click handler (main.js lines 60-67).  `resolve` models
`document.querySelector` restricted to the fragment strings this handler can
pass it: it returns the matching element, if any. -/
def anchorClick (motionOK : Bool) (resolve : String → Option Nat)
    (href : String) : ClickOutcome :=
  if href = "#" then ⟨false, []⟩
  else
    match resolve href with
    | none => ⟨false, []⟩
    | some target =>
        ⟨true, [⟨target, if motionOK then .smooth else .auto, "start"⟩]⟩

/-! ## 4. Navbar scroll intensity (main.js lines 102-117) -/

/-- The DOM state `update` (main.js lines 106-113) writes: the `--nav-scroll`
style property (absent before the first update) and the presence of the
`navbar--scrolled` class. -/
structure NavbarState where
  navScroll : Option ℚ
  scrolled : Bool
deriving Repr, DecidableEq

/-- `update` (main.js lines 106-113): `progress = clamp(scrollY / 300, 0, 1)`,
written to `--nav-scroll`; `classList.toggle("navbar--scrolled", scrollY > 50)`
forces the class to present iff `scrollY > 50`.  The result does not depend on
the prior state, since both fields are overwritten. -/
def navbarUpdate (scrollY : ℚ) : NavbarState :=
  { navScroll := some (clamp (scrollY / 300) 0 1)
    scrolled := decide (scrollY > 50) }

/-! ## 6. Parallax background blobs (main.js lines 153-182) -/

/-- `speeds` (main.js line 161): per-blob speed factors. -/
def speeds : List ℚ := [3/100, -(2/100), 15/1000]

/-- JS `x || d` for a possibly-out-of-range indexed read: `undefined` (here
`none`) and the falsy number `0` fall back to the default.  (No entry of
`speeds` is `0`, so only the `none` case is ever exercised.) -/
def jsOrDefault (v : Option ℚ) (d : ℚ) : ℚ :=
  match v with
  | some x => if x = 0 then d else x
  | none => d

/-- `speeds[i] || 0.02` (main.js line 167). -/
def blobSpeed (i : Nat) : ℚ := jsOrDefault speeds[i]? (2/100)

/-- `i === 0 ? 0.018 : -0.012` (main.js line 173). -/
def gradSpeed (i : Nat) : ℚ := if i = 0 then 18/1000 else -(12/1000)

/-- One parallax `update` (main.js lines 163-177) at scroll offset `scrollY`,
for `nBlobs` blob elements and `nGrads` gradient elements (in document order):
the vertical `translate3d` offset applied to each element. -/
def parallaxUpdate (scrollY : ℚ) (nBlobs nGrads : Nat) : List ℚ × List ℚ :=
  ((List.range nBlobs).map fun i => scrollY * blobSpeed i,
   (List.range nGrads).map fun i => scrollY * gradSpeed i)

/-! ## 7. Typing effect (main.js lines 187-226)

The `type` callback is a self-rescheduling chain: invoked at some instant, it
either appends `fullText.charAt(charIndex)` and schedules itself `42` ms
later, or (once `charIndex` reaches the end) schedules the
`typing-active` → `typing-done` class swap `2200` ms later.  The chain is
embedded as the timed list of mutations it performs, generated by structural
recursion over the not-yet-typed suffix `rest = fullText.drop charIndex`
(whose head is `fullText.charAt(charIndex)`). -/

/-- The element state the typing effect touches: the text content (as a list
of characters) and the two CSS hook classes. -/
structure TypingState where
  text : List Char
  typingActive : Bool
  typingDone : Bool
deriving Repr, DecidableEq

/-- A single DOM mutation performed by the typing chain. -/
inductive TypingMut
  | append (c : Char)
  | finish
deriving Repr, DecidableEq

/-- Apply one mutation: `el.textContent += c` (main.js line 202), or the
class swap `remove("typing-active"); add("typing-done")` (lines 208-209). -/
def applyMut (s : TypingState) : TypingMut → TypingState
  | .append c => { s with text := s.text ++ [c] }
  | .finish => { s with typingActive := false, typingDone := true }

/-- `speed = 42` ms per character (main.js line 198). -/
def typeSpeed : Nat := 42

/-- Startup delay `setTimeout(type, 600)` after first intersection
(main.js line 218). -/
def typeStartDelay : Nat := 600

/-- Dwell before the class swap: `setTimeout(..., 2200)` (main.js line 210). -/
def typeDwell : Nat := 2200

/-- `{ threshold: 0.3 }` of the typing trigger observer (main.js line 222). -/
def typingThreshold : ℚ := 3/10

/-- The timed mutations performed by `type` (main.js lines 200-212) when
invoked at absolute time `now` with not-yet-typed suffix `rest`:
a nonempty suffix appends its head now and re-runs `typeSpeed` later; an
exhausted suffix schedules the class swap `typeDwell` later. -/
def typeEvents : List Char → Nat → List (Nat × TypingMut)
  | [], now => [(now + typeDwell, .finish)]
  | c :: rest, now => (now, .append c) :: typeEvents rest (now + typeSpeed)

/-- State at time `t`: every mutation whose scheduled instant is `≤ t` has
been applied (the chain generates them in nondecreasing time order). -/
def applyEvents (evs : List (Nat × TypingMut)) (t : Nat) (s : TypingState) :
    TypingState :=
  evs.foldl (fun s e => if e.1 ≤ t then applyMut s e.2 else s) s

/-- JS `String.prototype.trim`: strip whitespace from both ends
(`fullText = el.textContent.trim()`, main.js line 193). -/
def trimChars (s : List Char) : List Char :=
  ((s.dropWhile Char.isWhitespace).reverse.dropWhile Char.isWhitespace).reverse

/-- Element state right after `initTyping` runs (main.js lines 194-195):
text emptied, `typing-active` added, `typing-done` absent. -/
def typingInit : TypingState := ⟨[], true, false⟩

/-- The tagline element's state at absolute time `t`, given the original
(untrimmed) text `orig` and the instant `trigger` at which the hero first
intersected at the 0.3 threshold (`none` if it never does).  On intersection
the chain starts `typeStartDelay` later with the trimmed text
(main.js lines 215-225). -/
def typingStateAt (orig : List Char) (trigger : Option Nat) (t : Nat) :
    TypingState :=
  match trigger with
  | none => typingInit
  | some t0 => applyEvents (typeEvents (trimChars orig) (t0 + typeStartDelay)) t typingInit

/-! ## 5. Section reveal (main.js lines 123-147)

One-shot observer behavior.  State: the observed set, the set of elements
carrying `is-visible`, and a log of the `classList.add("is-visible")` calls
the observer callback makes (in order). -/

/-- `{ threshold: 0.12 }` of the reveal observer (main.js line 141). -/
def revealThreshold : ℚ := 12/100

/-- State of the reveal behavior. -/
structure RevealState where
  observed : List Nat
  visible : List Nat
  addLog : List Nat
deriving Repr, DecidableEq

/-- `initReveal` (main.js lines 123-147) over the `.animate-wrapper` elements:
with motion allowed every wrapper is observed; with reduced motion every
wrapper receives `is-visible` immediately and nothing is observed. -/
def revealInit (motionOK : Bool) (wrappers : List Nat) : RevealState :=
  if motionOK then ⟨wrappers, [], []⟩ else ⟨[], wrappers, wrappers⟩

/-- Processing one delivered entry `(target, isIntersecting)` by the reveal
callback (main.js lines 133-140): an intersecting entry gets `is-visible`
added and its target unobserved.  The membership guard models the API
guarantee that entries are delivered only for currently observed targets;
`visible` is a set (`classList.add` is idempotent). -/
def revealStep (s : RevealState) (entry : Nat × Bool) : RevealState :=
  if entry.2 ∧ entry.1 ∈ s.observed then
    ⟨s.observed.erase entry.1,
     if entry.1 ∈ s.visible then s.visible else s.visible ++ [entry.1],
     s.addLog ++ [entry.1]⟩
  else s

/-- Fold a trace of delivered entries through the reveal callback. -/
def revealRun (s : RevealState) (trace : List (Nat × Bool)) : RevealState :=
  trace.foldl revealStep s

/-! ## 11. Lazy image loading (main.js lines 326-345)

Same one-shot observer shape, with a per-image payload mutation. -/

/-- `{ rootMargin: "200px" }` of the lazy-load observer (main.js line 341). -/
def lazyRootMargin : Nat := 200

/-- The attributes of one image the behavior touches: `src` and `data-src`. -/
structure ImgState where
  src : Option String
  dataSrc : Option String
deriving Repr, DecidableEq

/-- The load action (main.js lines 335-336): `img.src = img.dataset.src`,
then `removeAttribute("data-src")`. -/
def loadImg (st : ImgState) : ImgState := { src := st.dataSrc, dataSrc := none }

/-- State of the lazy-load behavior: every image (id paired with its
attributes), the observed set, and a log of load actions performed. -/
structure LazyState where
  imgs : List (Nat × ImgState)
  observed : List Nat
  loadLog : List Nat
deriving Repr, DecidableEq

/-- Apply `loadImg` to the image with id `i`, leaving all others unchanged. -/
def setImg (l : List (Nat × ImgState)) (i : Nat) : List (Nat × ImgState) :=
  l.map fun p => if p.1 = i then (p.1, loadImg p.2) else p

/-- Attribute lookup by image id (first binding wins, as for ids in a
document). -/
def lookupImg : List (Nat × ImgState) → Nat → Option ImgState
  | [], _ => none
  | p :: l, i => if p.1 = i then some p.2 else lookupImg l i

/-- The ids matching `.project-card__image[data-src]` (main.js line 327):
exactly the images whose `data-src` attribute is present. -/
def lazyMatched (imgs : List (Nat × ImgState)) : List Nat :=
  (imgs.filter fun p => p.2.dataSrc.isSome).map Prod.fst

/-- `initLazyImages` (main.js lines 326-345): observe every matching image. -/
def lazyInit (imgs : List (Nat × ImgState)) : LazyState :=
  ⟨imgs, lazyMatched imgs, []⟩

/-- Processing one delivered entry by the lazy-load callback (main.js lines
331-340): an intersecting entry loads its image and unobserves it.  The
membership guard models delivery only to currently observed targets. -/
def lazyStep (s : LazyState) (entry : Nat × Bool) : LazyState :=
  if entry.2 ∧ entry.1 ∈ s.observed then
    ⟨setImg s.imgs entry.1, s.observed.erase entry.1, s.loadLog ++ [entry.1]⟩
  else s

/-- Fold a trace of delivered entries through the lazy-load callback. -/
def lazyRun (s : LazyState) (trace : List (Nat × Bool)) : LazyState :=
  trace.foldl lazyStep s

/-! ## Startup effects of every behavior (guard structure)

For the silent-no-op claim, each of the eleven initialization routines is
embedded as a function from the elements its selectors found to the list of
externally visible effects it performs at startup (DOM mutations, listener
registrations, observer registrations, console output).  Each function takes
only its own behavior's elements, so the result is independent of any other
behavior's elements by construction.  None of the routines can throw in the
missing-element case: each is a total function and the source guards every
dereference behind the corresponding existence check. -/

/-- An externally visible startup effect. -/
inductive Effect
  | addClass (el : Nat) (c : String)
  | setStyleStr (el : Nat) (p v : String)
  | setStyleNum (el : Nat) (p : String) (v : ℚ)
  | toggleClassTo (el : Nat) (c : String) (force : Bool)
  | setText (el : Nat) (v : String)
  | listen (el : Nat) (ev : String)
  | listenWindow (ev : String)
  | observe (el : Nat)
  | logMsg (msg : String)
deriving Repr, DecidableEq

/-- `initMobileMenu` (main.js lines 34-54): guard `if (!toggle || !menu) return`. -/
def initMobileMenuEffects (toggle menu : Option Nat) (links : List Nat) :
    List Effect :=
  match toggle, menu with
  | some t, some _ => Effect.listen t "click" :: links.map (Effect.listen · "click")
  | _, _ => []

/-- Smooth-scroll wiring (main.js lines 59-68): one click listener per anchor. -/
def smoothScrollEffects (anchors : List Nat) : List Effect :=
  anchors.map (Effect.listen · "click")

/-- `initActiveNav` (main.js lines 73-96): guard
`if (!sections.length || !navLinks.length) return`. -/
def initActiveNavEffects (sections navLinks : List Nat) : List Effect :=
  if sections.isEmpty || navLinks.isEmpty then []
  else sections.map Effect.observe

/-- `initNavbarScroll` (main.js lines 102-117): guard `if (!navbar) return`;
otherwise registers the scroll listener and runs `update()` once. -/
def initNavbarScrollEffects (scrollY : ℚ) (navbar : Option Nat) : List Effect :=
  match navbar with
  | none => []
  | some n =>
      [Effect.listenWindow "scroll",
       Effect.setStyleNum n "--nav-scroll" (clamp (scrollY / 300) 0 1),
       Effect.toggleClassTo n "navbar--scrolled" (decide (scrollY > 50))]

/-- `initReveal` (main.js lines 123-147). -/
def initRevealEffects (motionOK : Bool) (wrappers : List Nat) : List Effect :=
  if motionOK then wrappers.map Effect.observe
  else wrappers.map (Effect.addClass · "is-visible")

/-- `initParallax` (main.js lines 153-182): guards `if (!motionOK) return` and
`if (!blobs.length && !bgGradients.length) return`. -/
def initParallaxEffects (motionOK : Bool) (blobs grads : List Nat) : List Effect :=
  if !motionOK then []
  else if blobs.isEmpty && grads.isEmpty then []
  else [Effect.listenWindow "scroll"]

/-- `initTyping` startup (main.js lines 187-226): guards `if (!motionOK) return`
and `if (!el) return`; otherwise empties the text, adds `typing-active`, and
observes `el.closest(".hero") || el`. -/
def initTypingEffects (motionOK : Bool) (tagline hero : Option Nat) : List Effect :=
  if !motionOK then []
  else
    match tagline with
    | none => []
    | some e =>
        [Effect.setText e "", Effect.addClass e "typing-active",
         Effect.observe (hero.getD e)]

/-- `initRipple` (main.js lines 231-261). -/
def initRippleEffects (motionOK : Bool) (buttons : List Nat) : List Effect :=
  if !motionOK then []
  else buttons.flatMap fun b =>
    [Effect.setStyleStr b "position" "relative",
     Effect.setStyleStr b "overflow" "hidden",
     Effect.listen b "click"]

/-- `initTilt` (main.js lines 267-290). -/
def initTiltEffects (motionOK : Bool) (cards : List Nat) : List Effect :=
  if !motionOK then []
  else cards.flatMap fun c => [Effect.listen c "mousemove", Effect.listen c "mouseleave"]

/-- `initMagnetic` (main.js lines 296-318). -/
def initMagneticEffects (motionOK : Bool) (targets : List Nat) : List Effect :=
  if !motionOK then []
  else targets.flatMap fun e => [Effect.listen e "mousemove", Effect.listen e "mouseleave"]

/-- `initLazyImages` startup (main.js lines 326-345): guard
`if (!images.length) return`. -/
def initLazyImagesEffects (images : List Nat) : List Effect :=
  if images.isEmpty then []
  else images.map Effect.observe

/-! ## Claim theorems: mobile menu -/

/-- C6 (counterexample): the double-toggle round trip fails as universally
stated.  From the state `aria-expanded = "false"`, `hidden = false`,
`is-active` absent, two clicks of the toggle control leave the menu with
`hidden = true`, not the original `false`. -/
theorem C6_counterexample :
    toggleClick (toggleClick ⟨some "false", false, false⟩) ≠
      (⟨some "false", false, false⟩ : MenuState) := by decide

/-- C6 (amended): for every starting state whose `aria-expanded` attribute is
exactly `"true"` or `"false"` and whose `hidden` property is consistent with
it (`hidden` iff not expanded), performing the toggle-control click handler
twice returns `aria-expanded`, the menu's `hidden` property, and the toggle's
`is-active` class to their original values. -/
theorem C6_toggle_roundtrip (s : MenuState)
    (ha : s.ariaExpanded = some "true" ∨ s.ariaExpanded = some "false")
    (hh : s.hidden = !(s.ariaExpanded == some "true")) :
    toggleClick (toggleClick s) = s := by
  obtain ⟨ae, h, a⟩ := s
  rcases ha with h1 | h1 <;> simp only at h1 <;> subst h1 <;>
    simp only [show ((some "true" == some "true" : Bool) = true) from rfl,
      show ((some "false" == some "true" : Bool) = false) from rfl,
      Bool.not_true, Bool.not_false] at hh <;> subst hh <;> cases a <;> decide

/-- C6 (witness): the round trip at the concrete consistent closed state
`aria-expanded = "false"`, `hidden = true`, `is-active` absent. -/
theorem C6_witness :
    toggleClick (toggleClick ⟨some "false", true, false⟩) =
      (⟨some "false", true, false⟩ : MenuState) :=
  C6_toggle_roundtrip ⟨some "false", true, false⟩ (Or.inr rfl) (by decide)

/-- C7: for every prior state of the mobile menu, clicking a
`navbar__mobile-link` leaves the menu closed: `aria-expanded = "false"`, the
menu's `hidden` property true, and `is-active` absent from the toggle. -/
theorem C7_mobile_link_closes (s : MenuState) :
    (mobileLinkClick s).ariaExpanded = some "false" ∧
    (mobileLinkClick s).hidden = true ∧
    (mobileLinkClick s).isActive = false :=
  ⟨rfl, rfl, rfl⟩

/-! ## Claim theorems: navbar scroll intensity -/

/-- C2: every navbar update at scroll offset `y` sets `--nav-scroll` to
`clamp(y/300, 0, 1)` — hence `0` at `y = 0`, `1` for `y ≥ 300`, and strictly
between `0` and `1` for `51 ≤ y ≤ 299` — and leaves `navbar--scrolled`
present iff `y > 50`. -/
theorem C2_navbar_update (y : ℚ) :
    (navbarUpdate y).navScroll = some (clamp (y / 300) 0 1) ∧
    (y = 0 → (navbarUpdate y).navScroll = some 0) ∧
    (300 ≤ y → (navbarUpdate y).navScroll = some 1) ∧
    (51 ≤ y → y ≤ 299 → 0 < clamp (y / 300) 0 1 ∧ clamp (y / 300) 0 1 < 1) ∧
    ((navbarUpdate y).scrolled = true ↔ 50 < y) := by
  refine ⟨rfl, ?_, ?_, ?_, ?_⟩
  · rintro rfl
    simp [navbarUpdate, clamp]
  · intro h
    have h1 : (1 : ℚ) ≤ y / 300 := by
      rw [le_div_iff₀ (by norm_num : (0 : ℚ) < 300)]
      linarith
    have hc : clamp (y / 300) 0 1 = 1 := by
      unfold clamp
      rw [min_eq_left h1]
      norm_num
    simp [navbarUpdate, hc]
  · intro h1 h2
    have hpos : (0 : ℚ) < y / 300 := by positivity
    have hlt : y / 300 < 1 := by
      rw [div_lt_one (by norm_num : (0 : ℚ) < 300)]
      linarith
    have hc : clamp (y / 300) 0 1 = y / 300 := by
      unfold clamp
      rw [min_eq_right (le_of_lt hlt), max_eq_right (le_of_lt hpos)]
    rw [hc]
    exact ⟨hpos, hlt⟩
  · simp [navbarUpdate]

/-- C2 (witness): at the concrete offset `y = 51` the progress value is
strictly between `0` and `1`. -/
theorem C2_witness :
    0 < clamp ((51 : ℚ) / 300) 0 1 ∧ clamp ((51 : ℚ) / 300) 0 1 < 1 :=
  (C2_navbar_update 51).2.2.2.1 (by norm_num) (by norm_num)

/-! ## Claim theorems: smooth-scroll anchors -/

/-- C5: for every click on an in-page anchor, a bare `"#"` href or a fragment
resolving to no element leaves default navigation untouched (no
`preventDefault`, no scroll request); a fragment resolving to an element gets
`preventDefault` and exactly one `scrollIntoView` request for that element,
smooth when motion is allowed and instant (`auto`) otherwise. -/
theorem C5_anchor_click (motionOK : Bool) (resolve : String → Option Nat)
    (href : String) :
    (href = "#" → anchorClick motionOK resolve href = ⟨false, []⟩) ∧
    (href ≠ "#" → resolve href = none →
       anchorClick motionOK resolve href = ⟨false, []⟩) ∧
    (∀ target, href ≠ "#" → resolve href = some target →
       anchorClick motionOK resolve href =
         ⟨true, [⟨target, if motionOK then .smooth else .auto, "start"⟩]⟩) := by
  refine ⟨fun h => ?_, fun h hn => ?_, fun target h ht => ?_⟩
  · simp [anchorClick, h]
  · simp [anchorClick, h, hn]
  · simp [anchorClick, h, ht]

/-- C5 (witness): a concrete click where the fragment resolves, with motion
allowed: default is prevented and one smooth scroll request is issued. -/
theorem C5_witness :
    anchorClick true (fun s => if s = "#about" then some 7 else none) "#about" =
      ⟨true, [⟨7, .smooth, "start"⟩]⟩ :=
  (C5_anchor_click true (fun s => if s = "#about" then some 7 else none)
    "#about").2.2 7 (by decide) (by decide)

/-! ## Claim theorems: parallax -/

/-- C8: a parallax update at scroll offset `y` translates blob `i` vertically
by `y` times `0.03`, `−0.02`, `0.015` for `i = 0, 1, 2` and `0.02` for every
`i ≥ 3`, and gradient `i` by `y` times `0.018` for `i = 0` and `−0.012` for
every `i ≥ 1`. -/
theorem C8_parallax (y : ℚ) (nBlobs nGrads i : Nat) :
    (i < nBlobs → ((parallaxUpdate y nBlobs nGrads).1)[i]? = some (y * blobSpeed i)) ∧
    (i < nGrads → ((parallaxUpdate y nBlobs nGrads).2)[i]? = some (y * gradSpeed i)) ∧
    blobSpeed 0 = 3/100 ∧ blobSpeed 1 = -(2/100) ∧ blobSpeed 2 = 15/1000 ∧
    (3 ≤ i → blobSpeed i = 2/100) ∧
    gradSpeed 0 = 18/1000 ∧ (1 ≤ i → gradSpeed i = -(12/1000)) := by
  refine ⟨fun h => ?_, fun h => ?_, ?_, ?_, ?_, fun h => ?_, ?_, fun h => ?_⟩
  · simp [parallaxUpdate, List.getElem?_map, List.getElem?_range, h]
  · simp [parallaxUpdate, List.getElem?_map, List.getElem?_range, h]
  · norm_num [blobSpeed, speeds, jsOrDefault]
  · norm_num [blobSpeed, speeds, jsOrDefault]
  · norm_num [blobSpeed, speeds, jsOrDefault]
  · have hnone : speeds[i]? = none := by
      apply List.getElem?_eq_none
      simp only [speeds]
      simp only [List.length_cons, List.length_nil]
      omega
    simp [blobSpeed, hnone, jsOrDefault]
  · norm_num [gradSpeed]
  · have hne : i ≠ 0 := by omega
    simp [gradSpeed, hne]

/-- C8 (witness): with four blobs and two gradients at offset `y = 10`, blob
`3` uses the default factor `0.02` and gradient `1` the factor `−0.012`. -/
theorem C8_witness :
    ((parallaxUpdate 10 4 2).1)[3]? = some (10 * blobSpeed 3) ∧
    blobSpeed 3 = 2/100 ∧ gradSpeed 1 = -(12/1000) :=
  ⟨(C8_parallax 10 4 2 3).1 (by norm_num),
   (C8_parallax 10 4 2 3).2.2.2.2.2.1 (by norm_num),
   (C8_parallax 10 4 2 3).2.2.2.2.2.2.2 (by norm_num)⟩

/-! ## Typing-chain lemmas -/

/-- Unfolding: no events apply to nothing. -/
theorem applyEvents_nil (t : Nat) (s : TypingState) : applyEvents [] t s = s := rfl

/-- Unfolding: processing one event then the rest. -/
theorem applyEvents_cons (e : Nat × TypingMut) (evs : List (Nat × TypingMut))
    (t : Nat) (s : TypingState) :
    applyEvents (e :: evs) t s =
      applyEvents evs t (if e.1 ≤ t then applyMut s e.2 else s) := rfl

/-- Once every append instant has passed, the whole suffix has been typed:
the text is the starting text followed by `rest`. -/
theorem typeEvents_text_complete (rest : List Char) (now t : Nat) (s : TypingState)
    (h : now + typeSpeed * rest.length ≤ t) :
    (applyEvents (typeEvents rest now) t s).text = s.text ++ rest := by
  induction rest generalizing now s with
  | nil =>
      rw [typeEvents, applyEvents_cons, applyEvents_nil]
      split <;> simp [applyMut]
  | cons c rs ih =>
      have hnow : now ≤ t := by
        simp only [typeSpeed] at h
        simp only [List.length_cons] at h
        omega
      rw [typeEvents, applyEvents_cons, if_pos hnow]
      rw [ih (now + typeSpeed) (applyMut s (.append c))
        (by simp only [typeSpeed] at h ⊢; simp only [List.length_cons] at h; omega)]
      simp [applyMut]

/-- Strictly before the class-swap instant
`now + typeSpeed * rest.length + typeDwell`, both hook classes are untouched. -/
theorem typeEvents_flags_before (rest : List Char) (now t : Nat) (s : TypingState)
    (h : t < now + typeSpeed * rest.length + typeDwell) :
    (applyEvents (typeEvents rest now) t s).typingActive = s.typingActive ∧
    (applyEvents (typeEvents rest now) t s).typingDone = s.typingDone := by
  induction rest generalizing now s with
  | nil =>
      rw [typeEvents, applyEvents_cons, applyEvents_nil]
      rw [if_neg (by simp only [List.length_nil, Nat.mul_zero, Nat.add_zero] at h; omega)]
      exact ⟨rfl, rfl⟩
  | cons c rs ih =>
      rw [typeEvents, applyEvents_cons]
      have h2 : t < (now + typeSpeed) + typeSpeed * rs.length + typeDwell := by
        simp only [typeSpeed] at h ⊢
        simp only [List.length_cons] at h
        omega
      split
      · have := ih (now + typeSpeed) (applyMut s (.append c)) h2
        simpa [applyMut] using this
      · exact ih (now + typeSpeed) s h2

/-- From the class-swap instant on, the element is fully settled: the whole
suffix typed, `typing-active` removed, `typing-done` added. -/
theorem typeEvents_final (rest : List Char) (now t : Nat) (s : TypingState)
    (h : now + typeSpeed * rest.length + typeDwell ≤ t) :
    applyEvents (typeEvents rest now) t s = ⟨s.text ++ rest, false, true⟩ := by
  induction rest generalizing now s with
  | nil =>
      rw [typeEvents, applyEvents_cons, applyEvents_nil]
      rw [if_pos (by simp only [List.length_nil, Nat.mul_zero, Nat.add_zero] at h; omega)]
      simp [applyMut]
  | cons c rs ih =>
      have hnow : now ≤ t := by
        simp only [typeSpeed, typeDwell] at h
        simp only [List.length_cons] at h
        omega
      rw [typeEvents, applyEvents_cons, if_pos hnow]
      rw [ih (now + typeSpeed) (applyMut s (.append c))
        (by simp only [typeSpeed, typeDwell] at h ⊢
            simp only [List.length_cons] at h
            omega)]
      simp [applyMut]

/-! ## Claim theorems: typing effect -/

/-- C1 (counterexample): with original tagline text `" a "` (length `N = 3`)
and the hero first intersecting at time `0`, the claim fails on two counts.
At `600 + N×42 = 726` ms the text is the trimmed `"a"`, not the original
`" a "`; and `2200` ms after the last character was appended (the only
character, appended at `600`, so at `2800`) `typing-active` is still present,
because the removal is scheduled `2200` ms after the no-op tick that follows
the last character, i.e. at `600 + 42 + 2200 = 2842`. -/
theorem C1_counterexample :
    (typingStateAt [' ', 'a', ' '] (some 0) 726).text ≠ [' ', 'a', ' '] ∧
    (typingStateAt [' ', 'a', ' '] (some 0) 2800).typingActive = true := by
  constructor
  · decide
  · decide

/-- C1 (amended): with motion allowed, for a tagline whose trimmed original
text has length `M` and a hero first intersecting at time `t0`: at
`t0 + 600 + M×42` ms the element's text equals the trimmed original text;
`typing-active` is present (and `typing-done` absent) at every time strictly
before `t0 + 600 + M×42 + 2200`; and from `t0 + 600 + M×42 + 2200` on — that
is, `2242` ms after the last character is appended when `M ≥ 1` —
`typing-active` is removed, `typing-done` is added, and the text is the
trimmed original. -/
theorem C1_typing_timeline (orig : List Char) (t0 t : Nat) :
    (typingStateAt orig (some t0)
        (t0 + typeStartDelay + typeSpeed * (trimChars orig).length)).text
      = trimChars orig ∧
    (t < t0 + typeStartDelay + typeSpeed * (trimChars orig).length + typeDwell →
       (typingStateAt orig (some t0) t).typingActive = true ∧
       (typingStateAt orig (some t0) t).typingDone = false) ∧
    (t0 + typeStartDelay + typeSpeed * (trimChars orig).length + typeDwell ≤ t →
       typingStateAt orig (some t0) t = ⟨trimChars orig, false, true⟩) := by
  refine ⟨?_, fun h => ?_, fun h => ?_⟩
  · show (applyEvents (typeEvents (trimChars orig) (t0 + typeStartDelay)) _ typingInit).text = _
    rw [typeEvents_text_complete (trimChars orig) (t0 + typeStartDelay) _ typingInit
      (by omega)]
    rfl
  · show (applyEvents (typeEvents (trimChars orig) (t0 + typeStartDelay)) t typingInit).typingActive = true ∧
      (applyEvents (typeEvents (trimChars orig) (t0 + typeStartDelay)) t typingInit).typingDone = false
    exact typeEvents_flags_before (trimChars orig) (t0 + typeStartDelay) t typingInit
      (by omega)
  · show applyEvents (typeEvents (trimChars orig) (t0 + typeStartDelay)) t typingInit = _
    rw [typeEvents_final (trimChars orig) (t0 + typeStartDelay) t typingInit (by omega)]
    rfl

/-- C1 (witness): tagline `"hi"` (already trimmed, `M = 2`), intersection at
time `0`: at `1000` ms (before the swap instant `2884`) `typing-active` is
still present, and at `2884 = 600 + 2×42 + 2200` ms the element reads `"hi"`
with `typing-active` removed and `typing-done` added. -/
theorem C1_witness :
    (typingStateAt ['h', 'i'] (some 0) 1000).typingActive = true ∧
    typingStateAt ['h', 'i'] (some 0) 2884 = ⟨['h', 'i'], false, true⟩ :=
  ⟨((C1_typing_timeline ['h', 'i'] 0 1000).2.1 (by decide)).1,
   (C1_typing_timeline ['h', 'i'] 0 2884).2.2 (by decide)⟩

/-- C10: with motion allowed and a tagline present, initialization itself
leaves the element with empty text and `typing-active` added, before any
intersection; if the hero never intersects, the text stays empty and
`typing-active` stays present at every time; and once typing completes, the
text is the trimmed original text, not the verbatim original. -/
theorem C10_typing_init (orig : List Char) (t t0 u : Nat) :
    typingInit.text = [] ∧
    typingInit.typingActive = true ∧
    typingStateAt orig none t = typingInit ∧
    (typingStateAt orig none t).text = [] ∧
    (typingStateAt orig none t).typingActive = true ∧
    (t0 + typeStartDelay + typeSpeed * (trimChars orig).length ≤ u →
       (typingStateAt orig (some t0) u).text = trimChars orig) := by
  refine ⟨rfl, rfl, rfl, rfl, rfl, fun h => ?_⟩
  show (applyEvents (typeEvents (trimChars orig) (t0 + typeStartDelay)) u typingInit).text = _
  rw [typeEvents_text_complete (trimChars orig) (t0 + typeStartDelay) u typingInit
    (by omega)]
  rfl

/-- C10 (witness): original text `" hi "`, intersection at time `5`: at
`3000` ms the element's text is the trimmed `"hi"`. -/
theorem C10_witness :
    (typingStateAt [' ', 'h', 'i', ' '] (some 5) 3000).text = ['h', 'i'] :=
  (C10_typing_init [' ', 'h', 'i', ' '] 0 5 3000).2.2.2.2.2 (by decide)

/-! ## One-shot reveal observer lemmas -/

/-- Unfolding: empty trace. -/
theorem revealRun_nil (s : RevealState) : revealRun s [] = s := rfl

/-- Unfolding: one entry then the rest. -/
theorem revealRun_cons (s : RevealState) (e : Nat × Bool) (es : List (Nat × Bool)) :
    revealRun s (e :: es) = revealRun (revealStep s e) es := rfl

/-- An element not currently observed is never touched again by the reveal
callback: its add count, non-observation, and visibility are preserved by any
further trace. -/
theorem revealRun_not_observed (trace : List (Nat × Bool)) (s : RevealState)
    (i : Nat) (h : i ∉ s.observed) :
    (revealRun s trace).addLog.count i = s.addLog.count i ∧
    i ∉ (revealRun s trace).observed ∧
    ((i ∈ (revealRun s trace).visible) ↔ i ∈ s.visible) := by
  induction trace generalizing s with
  | nil => exact ⟨rfl, h, Iff.rfl⟩
  | cons e es ih =>
      rw [revealRun_cons]
      by_cases hg : (e.2 : Prop) ∧ e.1 ∈ s.observed
      · have hne : i ≠ e.1 := fun hEq => h (hEq ▸ hg.2)
        have hstep : revealStep s e =
            ⟨s.observed.erase e.1,
             if e.1 ∈ s.visible then s.visible else s.visible ++ [e.1],
             s.addLog ++ [e.1]⟩ := by
          unfold revealStep
          rw [if_pos hg]
        rw [hstep]
        have hobs : i ∉ s.observed.erase e.1 := fun hmem => h (List.mem_of_mem_erase hmem)
        obtain ⟨c1, c2, c3⟩ :=
          ih (⟨s.observed.erase e.1,
               if e.1 ∈ s.visible then s.visible else s.visible ++ [e.1],
               s.addLog ++ [e.1]⟩ : RevealState) hobs
        refine ⟨?_, c2, ?_⟩
        · rw [c1]
          simp [List.count_append, hne]
        · rw [c3]
          split
          · exact Iff.rfl
          · simp [List.mem_append, hne]
      · have hstep : revealStep s e = s := by
          unfold revealStep
          rw [if_neg hg]
        rw [hstep]
        exact ih s h

/-- An element currently observed: the first intersecting entry for it adds
`is-visible` exactly once and unobserves it; absent such an entry, nothing
about it changes. -/
theorem revealRun_observed (trace : List (Nat × Bool)) (s : RevealState)
    (i : Nat) (hobs : i ∈ s.observed) (hnd : s.observed.Nodup) :
    ((i, true) ∈ trace →
       (revealRun s trace).addLog.count i = s.addLog.count i + 1 ∧
       i ∉ (revealRun s trace).observed ∧
       i ∈ (revealRun s trace).visible) ∧
    ((i, true) ∉ trace →
       (revealRun s trace).addLog.count i = s.addLog.count i ∧
       i ∈ (revealRun s trace).observed ∧
       ((i ∈ (revealRun s trace).visible) ↔ i ∈ s.visible)) := by
  induction trace generalizing s with
  | nil =>
      exact ⟨fun hmem => absurd hmem (List.not_mem_nil _),
             fun _ => ⟨rfl, hobs, Iff.rfl⟩⟩
  | cons e es ih =>
      obtain ⟨j, b⟩ := e
      rw [revealRun_cons]
      by_cases hji : j = i
      · subst hji
        cases b
        · have hstep : revealStep s (j, false) = s := by
            unfold revealStep
            rw [if_neg (by simp)]
          rw [hstep]
          obtain ⟨ih1, ih2⟩ := ih s hobs hnd
          constructor
          · intro hmem
            exact ih1 (by simpa using hmem)
          · intro hmem
            exact ih2 (by simp at hmem; exact hmem)
        · have hg : ((true : Bool) : Prop) ∧ j ∈ s.observed := ⟨rfl, hobs⟩
          have hstep : revealStep s (j, true) =
              ⟨s.observed.erase j,
               if j ∈ s.visible then s.visible else s.visible ++ [j],
               s.addLog ++ [j]⟩ := by
            unfold revealStep
            rw [if_pos hg]
          rw [hstep]
          have hout : j ∉ s.observed.erase j := fun hmem =>
            ((hnd.mem_erase_iff).mp hmem).1 rfl
          obtain ⟨c1, c2, c3⟩ := revealRun_not_observed es
            (⟨s.observed.erase j,
              if j ∈ s.visible then s.visible else s.visible ++ [j],
              s.addLog ++ [j]⟩ : RevealState) j hout
          constructor
          · intro _
            refine ⟨?_, c2, ?_⟩
            · rw [c1]
              simp [List.count_append]
            · rw [c3]
              split
              · assumption
              · simp
          · intro hmem
            exact absurd (List.mem_cons_self _ _) hmem
      · have hmem_iff : ((i, true) ∈ (j, b) :: es) ↔ (i, true) ∈ es := by
          simp [Ne.symm hji, hji]
        by_cases hg : (b : Prop) ∧ j ∈ s.observed
        · have hstep : revealStep s (j, b) =
              ⟨s.observed.erase j,
               if j ∈ s.visible then s.visible else s.visible ++ [j],
               s.addLog ++ [j]⟩ := by
            unfold revealStep
            rw [if_pos hg]
          rw [hstep]
          have hobs2 : i ∈ s.observed.erase j :=
            (List.mem_erase_of_ne (Ne.symm hji)).mpr hobs
          have hnd2 : (s.observed.erase j).Nodup := hnd.erase j
          obtain ⟨ih1, ih2⟩ := ih
            (⟨s.observed.erase j,
              if j ∈ s.visible then s.visible else s.visible ++ [j],
              s.addLog ++ [j]⟩ : RevealState) hobs2 hnd2
          constructor
          · intro hmem
            obtain ⟨d1, d2, d3⟩ := ih1 (hmem_iff.mp hmem)
            refine ⟨?_, d2, d3⟩
            · rw [d1]
              simp [List.count_append, Ne.symm hji, hji]
          · intro hmem
            obtain ⟨d1, d2, d3⟩ := ih2 (fun hm => hmem (hmem_iff.mpr hm))
            refine ⟨?_, d2, ?_⟩
            · rw [d1]
              simp [List.count_append, Ne.symm hji, hji]
            · rw [d3]
              split
              · exact Iff.rfl
              · simp [List.mem_append, Ne.symm hji, hji]
        · have hstep : revealStep s (j, b) = s := by
            unfold revealStep
            rw [if_neg hg]
          rw [hstep]
          obtain ⟨ih1, ih2⟩ := ih s hobs hnd
          exact ⟨fun hmem => ih1 (hmem_iff.mp hmem),
                 fun hmem => ih2 (fun hm => hmem (hmem_iff.mpr hm))⟩

/-! ## Claim theorems: section reveal -/

/-- C3: with motion allowed, over any trace of delivered intersection entries
each `.animate-wrapper` element has `is-visible` added at most once, and only
as the result of an entry reporting it intersecting (at the observer's `0.12`
threshold), after which it is no longer observed; with motion disallowed,
every wrapper is visible immediately at startup and nothing is observed. -/
theorem C3_reveal (wrappers : List Nat) (trace : List (Nat × Bool)) (i : Nat)
    (hnd : wrappers.Nodup) :
    revealThreshold = 12/100 ∧
    (revealRun (revealInit true wrappers) trace).addLog.count i ≤ 1 ∧
    (i ∈ (revealRun (revealInit true wrappers) trace).addLog →
       (i, true) ∈ trace ∧
       i ∉ (revealRun (revealInit true wrappers) trace).observed) ∧
    (revealInit false wrappers).visible = wrappers ∧
    (revealInit false wrappers).observed = [] := by
  have hinit : revealInit true wrappers = ⟨wrappers, [], []⟩ := rfl
  rw [hinit]
  refine ⟨rfl, ?_, ?_, rfl, rfl⟩
  · by_cases hi : i ∈ wrappers
    · obtain ⟨H1, H2⟩ :=
        revealRun_observed trace ⟨wrappers, [], []⟩ i hi hnd
      by_cases ht : (i, true) ∈ trace
      · rw [(H1 ht).1]
        simp
      · rw [(H2 ht).1]
        simp
    · obtain ⟨c1, -, -⟩ := revealRun_not_observed trace ⟨wrappers, [], []⟩ i hi
      rw [c1]
      simp
  · intro hmem
    by_cases hi : i ∈ wrappers
    · obtain ⟨H1, H2⟩ :=
        revealRun_observed trace ⟨wrappers, [], []⟩ i hi hnd
      by_cases ht : (i, true) ∈ trace
      · exact ⟨ht, (H1 ht).2.1⟩
      · have h0 : (revealRun ⟨wrappers, [], []⟩ trace).addLog.count i = 0 := by
          rw [(H2 ht).1]
          simp
        exact absurd hmem (List.count_eq_zero.mp h0)
    · obtain ⟨c1, -, -⟩ := revealRun_not_observed trace ⟨wrappers, [], []⟩ i hi
      have h0 : (revealRun ⟨wrappers, [], []⟩ trace).addLog.count i = 0 := by
        rw [c1]
        simp
      exact absurd hmem (List.count_eq_zero.mp h0)

/-- C3 (witness): two wrappers, a trace that reports wrapper `1` intersecting
twice and wrapper `2` not intersecting: wrapper `1` still gets `is-visible`
added at most once. -/
theorem C3_witness :
    (revealRun (revealInit true [1, 2])
        [(1, true), (1, true), (2, false)]).addLog.count 1 ≤ 1 :=
  (C3_reveal [1, 2] [(1, true), (1, true), (2, false)] 1 (by decide)).2.1

/-! ## One-shot lazy-load observer lemmas -/

/-- Unfolding: empty trace. -/
theorem lazyRun_nil (s : LazyState) : lazyRun s [] = s := rfl

/-- Unfolding: one entry then the rest. -/
theorem lazyRun_cons (s : LazyState) (e : Nat × Bool) (es : List (Nat × Bool)) :
    lazyRun s (e :: es) = lazyRun (lazyStep s e) es := rfl

/-- Loading image `j` changes exactly image `j`, by `loadImg`. -/
theorem lookupImg_setImg (l : List (Nat × ImgState)) (j i : Nat) :
    lookupImg (setImg l j) i =
      if i = j then (lookupImg l i).map loadImg else lookupImg l i := by
  induction l with
  | nil =>
      simp only [setImg, List.map_nil, lookupImg]
      split <;> rfl
  | cons p l ih =>
      simp only [setImg, List.map_cons] at ih ⊢
      by_cases hpj : p.1 = j
      · by_cases hpi : p.1 = i
        · have hij : i = j := by rw [← hpi, hpj]
          simp [lookupImg, hpj, hpi, hij]
        · have hji : ¬j = i := by
            rw [← hpj]
            exact hpi
          have hij : ¬i = j := fun hEq => hji hEq.symm
          simp [lookupImg, hpj, hpi, hji, hij, ih]
      · by_cases hpi : p.1 = i
        · have hij : ¬i = j := by
            rw [← hpi]
            exact hpj
          simp [lookupImg, hpj, hpi, hij]
        · simp [lookupImg, hpj, hpi, ih]

/-- Every id in the matched list is an id of some image. -/
theorem lazyMatched_subset (imgs : List (Nat × ImgState)) (i : Nat)
    (h : i ∈ lazyMatched imgs) : i ∈ imgs.map Prod.fst := by
  simp only [lazyMatched, List.mem_map] at h
  obtain ⟨p, hp, hfst⟩ := h
  exact List.mem_map.mpr ⟨p, (List.mem_filter.mp hp).1, hfst⟩

/-- With distinct ids, an image is matched (observed at startup) iff its
`data-src` attribute is present. -/
theorem mem_lazyMatched_iff (imgs : List (Nat × ImgState)) (i : Nat) (st : ImgState)
    (hnd : (imgs.map Prod.fst).Nodup) (hl : lookupImg imgs i = some st) :
    (i ∈ lazyMatched imgs ↔ st.dataSrc.isSome = true) := by
  induction imgs with
  | nil => simp [lookupImg] at hl
  | cons p l ih =>
      simp only [List.map_cons, List.nodup_cons] at hnd
      obtain ⟨hp, hnd2⟩ := hnd
      by_cases hpi : p.1 = i
      · have hst : st = p.2 := by
          rw [lookupImg, if_pos hpi] at hl
          exact (Option.some.inj hl).symm
        subst hst
        by_cases hq : p.2.dataSrc.isSome
        · simp [lazyMatched, List.filter_cons, hq, hpi]
        · have hnot : i ∉ lazyMatched l := fun hm => by
            have := lazyMatched_subset l i hm
            rw [← hpi] at this
            exact hp this
          have hfil : lazyMatched (p :: l) = lazyMatched l := by
            simp [lazyMatched, List.filter_cons, hq]
          rw [hfil]
          constructor
          · intro hm
            exact absurd hm hnot
          · intro hm
            exact absurd hm hq
      · have hl2 : lookupImg l i = some st := by
          rw [lookupImg, if_neg hpi] at hl
          exact hl
        have hiff := ih hnd2 hl2
        by_cases hq : p.2.dataSrc.isSome
        · simp only [lazyMatched, List.filter_cons, hq, if_pos, List.map_cons]
          rw [← hiff]
          simp only [lazyMatched]
          constructor
          · intro hm
            rcases List.mem_cons.mp hm with h1 | h1
            · exact absurd h1.symm (fun hEq => hpi hEq)
            · exact h1
          · exact fun hm => List.mem_cons_of_mem _ hm
        · simp only [lazyMatched, List.filter_cons, hq, Bool.false_eq_true, if_neg,
            Bool.eq_false_iff.mpr hq]
          exact hiff

/-- With distinct image ids, the startup observed list has no duplicates. -/
theorem lazyMatched_nodup (imgs : List (Nat × ImgState))
    (hnd : (imgs.map Prod.fst).Nodup) : (lazyMatched imgs).Nodup :=
  ((List.filter_sublist _).map Prod.fst).nodup hnd

/-- An image not currently observed is never touched again by the lazy-load
callback. -/
theorem lazyRun_not_observed (trace : List (Nat × Bool)) (s : LazyState)
    (i : Nat) (h : i ∉ s.observed) :
    (lazyRun s trace).loadLog.count i = s.loadLog.count i ∧
    i ∉ (lazyRun s trace).observed ∧
    lookupImg (lazyRun s trace).imgs i = lookupImg s.imgs i := by
  induction trace generalizing s with
  | nil => exact ⟨rfl, h, rfl⟩
  | cons e es ih =>
      rw [lazyRun_cons]
      by_cases hg : (e.2 : Prop) ∧ e.1 ∈ s.observed
      · have hne : i ≠ e.1 := fun hEq => h (hEq ▸ hg.2)
        have hstep : lazyStep s e =
            ⟨setImg s.imgs e.1, s.observed.erase e.1, s.loadLog ++ [e.1]⟩ := by
          unfold lazyStep
          rw [if_pos hg]
        rw [hstep]
        have hobs : i ∉ s.observed.erase e.1 := fun hmem => h (List.mem_of_mem_erase hmem)
        obtain ⟨c1, c2, c3⟩ :=
          ih (⟨setImg s.imgs e.1, s.observed.erase e.1, s.loadLog ++ [e.1]⟩ : LazyState) hobs
        refine ⟨?_, c2, ?_⟩
        · rw [c1]
          simp [List.count_append, hne]
        · rw [c3]
          simp only [lookupImg_setImg]
          rw [if_neg hne]
      · have hstep : lazyStep s e = s := by
          unfold lazyStep
          rw [if_neg hg]
        rw [hstep]
        exact ih s h

/-- An image currently observed: the first intersecting entry for it loads it
exactly once (`src` takes the prior `data-src`, `data-src` is dropped) and
unobserves it; absent such an entry, nothing about it changes. -/
theorem lazyRun_observed (trace : List (Nat × Bool)) (s : LazyState)
    (i : Nat) (hobs : i ∈ s.observed) (hnd : s.observed.Nodup) :
    ((i, true) ∈ trace →
       (lazyRun s trace).loadLog.count i = s.loadLog.count i + 1 ∧
       i ∉ (lazyRun s trace).observed ∧
       lookupImg (lazyRun s trace).imgs i = (lookupImg s.imgs i).map loadImg) ∧
    ((i, true) ∉ trace →
       (lazyRun s trace).loadLog.count i = s.loadLog.count i ∧
       i ∈ (lazyRun s trace).observed ∧
       lookupImg (lazyRun s trace).imgs i = lookupImg s.imgs i) := by
  induction trace generalizing s with
  | nil =>
      exact ⟨fun hmem => absurd hmem (List.not_mem_nil _),
             fun _ => ⟨rfl, hobs, rfl⟩⟩
  | cons e es ih =>
      obtain ⟨j, b⟩ := e
      rw [lazyRun_cons]
      by_cases hji : j = i
      · subst hji
        cases b
        · have hstep : lazyStep s (j, false) = s := by
            unfold lazyStep
            rw [if_neg (by simp)]
          rw [hstep]
          obtain ⟨ih1, ih2⟩ := ih s hobs hnd
          constructor
          · intro hmem
            exact ih1 (by simpa using hmem)
          · intro hmem
            exact ih2 (by simp at hmem; exact hmem)
        · have hg : ((true : Bool) : Prop) ∧ j ∈ s.observed := ⟨rfl, hobs⟩
          have hstep : lazyStep s (j, true) =
              ⟨setImg s.imgs j, s.observed.erase j, s.loadLog ++ [j]⟩ := by
            unfold lazyStep
            rw [if_pos hg]
          rw [hstep]
          have hout : j ∉ s.observed.erase j := fun hmem =>
            ((hnd.mem_erase_iff).mp hmem).1 rfl
          obtain ⟨c1, c2, c3⟩ := lazyRun_not_observed es
            (⟨setImg s.imgs j, s.observed.erase j, s.loadLog ++ [j]⟩ : LazyState) j hout
          constructor
          · intro _
            refine ⟨?_, c2, ?_⟩
            · rw [c1]
              simp [List.count_append]
            · rw [c3]
              simp [lookupImg_setImg]
          · intro hmem
            exact absurd (List.mem_cons_self _ _) hmem
      · have hmem_iff : ((i, true) ∈ (j, b) :: es) ↔ (i, true) ∈ es := by
          simp [Ne.symm hji, hji]
        by_cases hg : (b : Prop) ∧ j ∈ s.observed
        · have hstep : lazyStep s (j, b) =
              ⟨setImg s.imgs j, s.observed.erase j, s.loadLog ++ [j]⟩ := by
            unfold lazyStep
            rw [if_pos hg]
          rw [hstep]
          have hobs2 : i ∈ s.observed.erase j :=
            (List.mem_erase_of_ne (Ne.symm hji)).mpr hobs
          have hnd2 : (s.observed.erase j).Nodup := hnd.erase j
          obtain ⟨ih1, ih2⟩ := ih
            (⟨setImg s.imgs j, s.observed.erase j, s.loadLog ++ [j]⟩ : LazyState) hobs2 hnd2
          have hlk : lookupImg (setImg s.imgs j) i = lookupImg s.imgs i := by
            simp only [lookupImg_setImg]
            rw [if_neg (Ne.symm hji)]
          constructor
          · intro hmem
            obtain ⟨d1, d2, d3⟩ := ih1 (hmem_iff.mp hmem)
            refine ⟨?_, d2, ?_⟩
            · rw [d1]
              simp [List.count_append, Ne.symm hji, hji]
            · rw [d3]
              simp only [hlk]
          · intro hmem
            obtain ⟨d1, d2, d3⟩ := ih2 (fun hm => hmem (hmem_iff.mpr hm))
            refine ⟨?_, d2, ?_⟩
            · rw [d1]
              simp [List.count_append, Ne.symm hji, hji]
            · rw [d3]
              simp only [hlk]
        · have hstep : lazyStep s (j, b) = s := by
            unfold lazyStep
            rw [if_neg hg]
          rw [hstep]
          obtain ⟨ih1, ih2⟩ := ih s hobs hnd
          exact ⟨fun hmem => ih1 (hmem_iff.mp hmem),
                 fun hmem => ih2 (fun hm => hmem (hmem_iff.mpr hm))⟩

/-! ## Claim theorems: lazy image loading -/

/-- C4: over any trace of delivered entries, an image that started with a
`data-src` attribute is loaded exactly once if some entry reports it
intersecting (its `src` becomes the value `data-src` held immediately before,
`data-src` is removed, and it is unobserved) and zero times otherwise, with
its attributes then unchanged; an image without `data-src` is never observed
and never modified.  The observer is configured with a `200`px root margin. -/
theorem C4_lazy_images (imgs : List (Nat × ImgState)) (trace : List (Nat × Bool))
    (i : Nat) (st : ImgState)
    (hnd : (imgs.map Prod.fst).Nodup) (hl : lookupImg imgs i = some st) :
    lazyRootMargin = 200 ∧
    (st.dataSrc.isSome = true → (i, true) ∈ trace →
       (lazyRun (lazyInit imgs) trace).loadLog.count i = 1 ∧
       lookupImg (lazyRun (lazyInit imgs) trace).imgs i = some ⟨st.dataSrc, none⟩ ∧
       i ∉ (lazyRun (lazyInit imgs) trace).observed) ∧
    (st.dataSrc.isSome = true → (i, true) ∉ trace →
       (lazyRun (lazyInit imgs) trace).loadLog.count i = 0 ∧
       lookupImg (lazyRun (lazyInit imgs) trace).imgs i = some st ∧
       i ∈ (lazyRun (lazyInit imgs) trace).observed) ∧
    (st.dataSrc = none →
       (lazyRun (lazyInit imgs) trace).loadLog.count i = 0 ∧
       lookupImg (lazyRun (lazyInit imgs) trace).imgs i = some st ∧
       i ∉ (lazyRun (lazyInit imgs) trace).observed) := by
  have hinit : lazyInit imgs = ⟨imgs, lazyMatched imgs, []⟩ := rfl
  rw [hinit]
  refine ⟨rfl, fun hsome ht => ?_, fun hsome ht => ?_, fun hnone => ?_⟩
  · have hm : i ∈ lazyMatched imgs := (mem_lazyMatched_iff imgs i st hnd hl).mpr hsome
    obtain ⟨H1, -⟩ := lazyRun_observed trace ⟨imgs, lazyMatched imgs, []⟩ i hm
      (lazyMatched_nodup imgs hnd)
    obtain ⟨d1, d2, d3⟩ := H1 ht
    refine ⟨?_, ?_, d2⟩
    · rw [d1]
      simp
    · rw [d3]
      show (lookupImg imgs i).map loadImg = _
      rw [hl]
      rfl
  · have hm : i ∈ lazyMatched imgs := (mem_lazyMatched_iff imgs i st hnd hl).mpr hsome
    obtain ⟨-, H2⟩ := lazyRun_observed trace ⟨imgs, lazyMatched imgs, []⟩ i hm
      (lazyMatched_nodup imgs hnd)
    obtain ⟨d1, d2, d3⟩ := H2 ht
    refine ⟨?_, ?_, d2⟩
    · rw [d1]
      simp
    · rw [d3]
      exact hl
  · have hm : i ∉ lazyMatched imgs := fun hmem => by
      have := (mem_lazyMatched_iff imgs i st hnd hl).mp hmem
      rw [hnone] at this
      simp at this
    obtain ⟨c1, c2, c3⟩ := lazyRun_not_observed trace ⟨imgs, lazyMatched imgs, []⟩ i hm
    refine ⟨?_, ?_, c2⟩
    · rw [c1]
      simp
    · rw [c3]
      exact hl

/-- C4 (witness): a single image with `data-src = "a.png"` and a trace
reporting it intersecting once: it is loaded exactly once and ends with
`src = "a.png"` and no `data-src`. -/
theorem C4_witness :
    (lazyRun (lazyInit [(1, ⟨none, some "a.png"⟩)]) [(1, true)]).loadLog.count 1 = 1 ∧
    lookupImg (lazyRun (lazyInit [(1, ⟨none, some "a.png"⟩)]) [(1, true)]).imgs 1 =
      some ⟨some "a.png", none⟩ :=
  ⟨((C4_lazy_images [(1, ⟨none, some "a.png"⟩)] [(1, true)] 1 ⟨none, some "a.png"⟩
      (by decide) rfl).2.1 rfl (by decide)).1,
   ((C4_lazy_images [(1, ⟨none, some "a.png"⟩)] [(1, true)] 1 ⟨none, some "a.png"⟩
      (by decide) rfl).2.1 rfl (by decide)).2.1⟩

/-! ## Claim theorems: missing-element guards -/

/-- C9: for every behavior in the interaction layer, when the document
contains no element matching the behavior's required selector(s) the
initialization routine produces no effect at all — no DOM mutation, no
listener registration, no observation, no log entry — for either value of
the motion preference and any scroll offset.  (Each routine takes only its
own behavior's elements, so this is independent of whether any other
behavior's elements exist; and for the two-selector behaviors the absence of
either required element suffices.) -/
theorem C9_missing_elements (motionOK : Bool) (y : ℚ) (toggle menu : Option Nat)
    (links sections navLinks : List Nat) :
    (toggle = none ∨ menu = none → initMobileMenuEffects toggle menu links = []) ∧
    smoothScrollEffects [] = [] ∧
    (sections = [] ∨ navLinks = [] → initActiveNavEffects sections navLinks = []) ∧
    initNavbarScrollEffects y none = [] ∧
    initRevealEffects motionOK [] = [] ∧
    initParallaxEffects motionOK [] [] = [] ∧
    initTypingEffects motionOK none none = [] ∧
    initRippleEffects motionOK [] = [] ∧
    initTiltEffects motionOK [] = [] ∧
    initMagneticEffects motionOK [] = [] ∧
    initLazyImagesEffects [] = [] := by
  refine ⟨?_, rfl, ?_, rfl, ?_, ?_, ?_, ?_, ?_, ?_, rfl⟩
  · rintro (rfl | rfl)
    · rfl
    · cases toggle <;> rfl
  · rintro (rfl | rfl)
    · rfl
    · simp [initActiveNavEffects]
  · cases motionOK <;> rfl
  · cases motionOK <;> rfl
  · cases motionOK <;> rfl
  · cases motionOK <;> rfl
  · cases motionOK <;> rfl
  · cases motionOK <;> rfl

/-- C9 (witness): the mobile-menu behavior with no toggle present, and the
active-nav behavior with no sections (but one nav link), are both silent
no-ops. -/
theorem C9_witness :
    initMobileMenuEffects none none [] = [] ∧
    initActiveNavEffects [] [5] = [] :=
  ⟨(C9_missing_elements true 0 none none [] [] []).1 (Or.inl rfl),
   (C9_missing_elements true 0 none none [] [] [5]).2.2.1 (Or.inl rfl)⟩
